import Mathlib

/-!
# Verification of the peer-connection / signaling core

This file gives a shallow embedding, in Lean 4, of the signaling and
peer-connection core of the repository (the `WebRTCConnection` class, the
`SignalingService`, the `useSignalingHandler` duplicate-suppression cache and
the `useParticipantTracking` hook), and proves or refutes the specification
claims about it.

Conventions used throughout:

* JavaScript `Map`s are embedded as association lists (`List (String × α)`)
  with `Map.get` / `Map.set` / `Map.delete` embedded as `mapGet` / `mapSet` /
  `mapDelete` (a key occurs at most once, `set` replaces in place or appends,
  as a JS `Map` does).
* `Date.now()` values and timer delays are abstract `Nat` parameters threaded
  into each operation that reads the clock.
* An SDP blob is represented by its list of lines (the source splits on
  `'\n'` on entry to `setMediaBitrate` and joins on exit, and nowhere else
  inspects the raw string).
* The browser's `RTCPeerConnection` is an injected capability: the SDP text it
  generates for `createOffer` / `createAnswer` is an oracle argument, its
  `remoteDescription` slot is an explicit field, and a call to
  `addIceCandidate` is recorded in an `appliedCandidates` trace.  Calls to the
  signaling callback are recorded in an `outbox` trace.
* UI-only effects (toasts, status-change callbacks) have no state and are not
  modelled.
-/

/-! ## JavaScript string primitives

`String.startsWith` and lexicographic `<` on JS strings, embedded as
character-list functions so that every proof obligation about them reduces
structurally. -/

/-- `charsPrefix p l` is true iff the character list `p` is a prefix of `l`;
this is the character-level content of JS `l.startsWith(p)`. -/
def charsPrefix : List Char → List Char → Bool
  | [], _ => true
  | _ :: _, [] => false
  | c :: cs, d :: ds => c = d && charsPrefix cs ds

/-- Embedding of JS `l.startsWith(p)`. -/
def lineStartsWith (l p : String) : Bool := charsPrefix p.data l.data

/-- Lexicographic comparison on character lists; the content of the JS `<`
operator on strings. -/
def charsLt : List Char → List Char → Bool
  | [], [] => false
  | [], _ :: _ => true
  | _ :: _, [] => false
  | c :: cs, d :: ds => decide (c < d) || (c = d && charsLt cs ds)

/-- Embedding of the JS `<` operator on strings (lexicographic). -/
def jsStringLt (a b : String) : Bool := charsLt a.data b.data

/-! ## Association-list embedding of JS `Map` -/

/-- JS `map.get(k)` (`undefined` becomes `none`). -/
def mapGet {α : Type} : List (String × α) → String → Option α
  | [], _ => none
  | e :: es, k => if e.1 = k then some e.2 else mapGet es k

/-- JS `map.set(k, v)`: replaces the (unique) existing binding in place, or
appends a new one. -/
def mapSet {α : Type} : List (String × α) → String → α → List (String × α)
  | [], k, v => [(k, v)]
  | e :: es, k, v => if e.1 = k then (k, v) :: es else e :: mapSet es k v

/-- JS `map.delete(k)`. -/
def mapDelete {α : Type} (m : List (String × α)) (k : String) : List (String × α) :=
  m.filter (fun e => !(decide (e.1 = k)))

/-! ## Signaling envelopes (`SignalingData` in the source) -/

/-- The `metadata` object attached to envelopes.  Only the fields the modelled
control flow reads are kept. -/
structure Meta where
  displayName : Option String := none
  deriving Repr, DecidableEq

/-- An SDP blob, represented by its list of lines. -/
abbrev Sdp := List String

/-- A signaling envelope (`SignalingData` in the source).  ICE candidate
payloads are opaque and represented by a `Nat` tag. -/
structure SignalingData where
  type : String
  sdp : Option Sdp := none
  candidate : Option Nat := none
  sender : String
  target : Option String := none
  timestamp : Option Nat := none
  displayName : Option String := none
  metadata : Option Meta := none
  deriving Repr, DecidableEq

/-! ## `setMediaBitrate` (part_013 lines 514–561)

The source splits the SDP on `'\n'`, finds the first `m=<media>` line, finds
the next `m=` line (or the end), replaces the first `b=AS:` line strictly
between them, or, if there is none, splices a fresh `b=AS:<bitrate>` line
immediately after the `m=<media>` line; if there is no `m=<media>` line the
SDP is returned unchanged. -/

/-- Number of lines before the next `m=` line (the extent of the current media
section). -/
def sectionLen : List String → Nat
  | [] => 0
  | l :: ls => if lineStartsWith l "m=" then 0 else sectionLen ls + 1

/-- Replace the first `b=AS:` line with `bline`. -/
def replaceFirstB (bline : String) : List String → List String
  | [] => []
  | l :: ls => if lineStartsWith l "b=AS:" then bline :: ls else l :: replaceFirstB bline ls

/-- Rewrite the media section that starts at the head of `rest`: replace its
first `b=AS:` line if it has one (the first `b=AS:` line of `rest` is then
inside the section), else insert `bline` right after the `m=` line, i.e. at
the head of `rest`. -/
def applySection (bline : String) (rest : List String) : List String :=
  if (rest.take (sectionLen rest)).any (fun l => lineStartsWith l "b=AS:")
  then replaceFirstB bline rest
  else bline :: rest

/-- Walk to the first `m=<media>` line and rewrite its section. -/
def setMediaBitrateLines (media bline : String) : List String → List String
  | [] => []
  | l :: ls =>
    if lineStartsWith l ("m=" ++ media) then l :: applySection bline ls
    else l :: setMediaBitrateLines media bline ls

/-- `WebRTCConnection.setMediaBitrate` on the line representation of the SDP. -/
def setMediaBitrate (sdp : Sdp) (media : String) (bitrate : Nat) : Sdp :=
  setMediaBitrateLines media ("b=AS:" ++ toString bitrate) sdp

/-- The bandwidth rewriting `createOffer` and `handleOffer` apply to every
outgoing description: video capped at 2500, audio at 64. -/
def applyBitrates (sdp : Sdp) : Sdp :=
  setMediaBitrate (setMediaBitrate sdp "video" 2500) "audio" 64

/-- Observer: does the SDP have an `m=<media>` line at all? -/
def hasMediaSection (media : String) (sdp : Sdp) : Bool :=
  sdp.any (fun l => lineStartsWith l ("m=" ++ media))

/-- Observer: does the first `m=<media>` section contain `target` as one of
its lines (strictly between the `m=<media>` line and the next `m=` line)? -/
def sectionContains (media target : String) : List String → Bool
  | [] => false
  | l :: ls =>
    if lineStartsWith l ("m=" ++ media) then decide (target ∈ ls.take (sectionLen ls))
    else sectionContains media target ls

/-! ## The part_013 `WebRTCConnection` -/

namespace P13

/-- State of the part_013 `WebRTCConnection`, together with the observable
traces of its effects.  `outbox` records every envelope handed to the
signaling callback, `appliedCandidates` every candidate handed to the browser
`addIceCandidate`, both in order. -/
structure ConnState where
  userId : String
  displayName : String
  connectionState : String := "new"
  hasRemoteUser : Bool := false
  remotePeerId : Option String := none
  remoteDisplayName : Option String := none
  lastActivity : Nat := 0
  activeRemoteUsers : List (String × Nat) := []
  pendingIceCandidates : List (String × List Nat) := []
  remoteDescription : Option Sdp := none
  localDescription : Option Sdp := none
  remoteTracks : List Nat := []
  outbox : List SignalingData := []
  appliedCandidates : List Nat := []
  deriving Repr, DecidableEq

/-- `shouldInitiateConnection` (part_013 lines 830–832): the lexicographically
lower id initiates. -/
def shouldInitiateConnection (s : ConnState) (peerId : String) : Bool :=
  jsStringLt s.userId peerId

/-- The envelope `createOffer` sends. -/
def offerEnvelope (userId displayName : String) (sdp : Sdp) : SignalingData :=
  { type := "offer", sdp := some sdp, sender := userId,
    metadata := some { displayName := some displayName } }

/-- The envelope `handleOffer` answers with. -/
def answerEnvelope (userId displayName target : String) (sdp : Sdp) : SignalingData :=
  { type := "answer", sdp := some sdp, sender := userId, target := some target,
    metadata := some { displayName := some displayName } }

/-- `createOffer` (part_013 lines 457–512), success path: the browser
generates `baseSdp`, both bitrate caps are written into it, it becomes the
local description and is broadcast tagged `offer`. -/
def createOffer (s : ConnState) (baseSdp : Sdp) : ConnState :=
  let sdp := applyBitrates baseSdp
  { s with localDescription := some sdp,
           outbox := s.outbox ++ [offerEnvelope s.userId s.displayName sdp] }

/-- `handlePresence` (part_013 lines 780–826).  `now` is `Date.now()`,
`baseSdp` the SDP the browser would generate if an offer is created. -/
def handlePresence (s : ConnState) (senderId : String) (metadata : Option Meta)
    (now : Nat) (baseSdp : Sdp) : ConnState :=
  let s := { s with lastActivity := now }
  let s :=
    if senderId ≠ s.userId
    then { s with activeRemoteUsers := mapSet s.activeRemoteUsers senderId now }
    else s
  if (s.connectionState = "new" ∨ s.connectionState = "connecting")
      ∧ senderId ≠ s.userId ∧ shouldInitiateConnection s senderId = true then
    let s :=
      match metadata with
      | some m => { s with remotePeerId := some senderId,
                           remoteDisplayName := some (m.displayName.getD "Remote User") }
      | none => s
    createOffer s baseSdp
  else s

/-- `handleStatusUpdate` (part_013 lines 835–853); the remote-status callback
is UI-only and stateless. -/
def handleStatusUpdate (s : ConnState) (senderId : String) (_metadata : Option Meta)
    (now : Nat) : ConnState :=
  let s := { s with lastActivity := now }
  if senderId ≠ s.userId
  then { s with activeRemoteUsers := mapSet s.activeRemoteUsers senderId now }
  else s

/-- `pendingIceCandidates` bookkeeping of `handleIceCandidate`: create the
per-sender queue if absent, then push. -/
def queuePush (m : List (String × List Nat)) (k : String) (c : Nat) :
    List (String × List Nat) :=
  match mapGet m k with
  | none => mapSet m k [c]
  | some q => mapSet m k (q ++ [c])

/-- `handleIceCandidate` (part_013 lines 741–777), success path: update the
sender's activity stamp; queue the candidate if the connection has no remote
description yet (the check is `remoteDescription === null`, global, not
per-sender), otherwise apply it immediately. -/
def handleIceCandidate (s : ConnState) (candidate : Nat) (sender : String)
    (now : Nat) : ConnState :=
  let s := { s with activeRemoteUsers := mapSet s.activeRemoteUsers sender now }
  match s.remoteDescription with
  | none => { s with pendingIceCandidates := queuePush s.pendingIceCandidates sender candidate }
  | some _ => { s with appliedCandidates := s.appliedCandidates ++ [candidate] }

/-- The pending-candidate flush at the end of `handleOffer` / `handleAnswer`
(part_013 lines 658–668 and 713–722): if the sender has a non-empty queue,
apply every queued candidate in order and drop the queue. -/
def flushPending (s : ConnState) (sender : String) : ConnState :=
  match mapGet s.pendingIceCandidates sender with
  | some q =>
      if q.isEmpty then s
      else { s with appliedCandidates := s.appliedCandidates ++ q,
                    pendingIceCandidates := mapDelete s.pendingIceCandidates sender }
  | none => s

/-- `handleOffer` (part_013 lines 579–682), success path.  The rollback branch
only clears the local description, which the answer immediately overwrites;
`answerBase` is the SDP the browser generates for `createAnswer`. -/
def handleOffer (s : ConnState) (offer : Sdp) (sender : String) (metadata : Option Meta)
    (now : Nat) (answerBase : Sdp) : ConnState :=
  let s := { s with
    remotePeerId := some sender,
    remoteDisplayName := some ((metadata.bind Meta.displayName).getD "Remote User"),
    lastActivity := now,
    activeRemoteUsers := mapSet s.activeRemoteUsers sender now }
  let s := { s with remoteDescription := some offer }
  let answerSdp := applyBitrates answerBase
  let s := { s with
    localDescription := some answerSdp,
    outbox := s.outbox ++ [answerEnvelope s.userId s.displayName sender answerSdp] }
  let s := { s with hasRemoteUser := true }
  flushPending s sender

/-- `handleAnswer` (part_013 lines 685–738), success path. -/
def handleAnswer (s : ConnState) (answer : Sdp) (sender : String) (metadata : Option Meta)
    (now : Nat) : ConnState :=
  let s := { s with remoteDescription := some answer }
  let s := { s with
    remotePeerId := some sender,
    remoteDisplayName := some ((metadata.bind Meta.displayName).getD "Remote User"),
    lastActivity := now,
    activeRemoteUsers := mapSet s.activeRemoteUsers sender now }
  let s := { s with hasRemoteUser := true }
  flushPending s sender

/-- `handleParticipantLeft` (part_013 lines 341–363). -/
def handleParticipantLeft (s : ConnState) (participantId : String) : ConnState :=
  let s :=
    if s.remotePeerId = some participantId then
      { s with remotePeerId := none, remoteDisplayName := none, hasRemoteUser := false,
               remoteTracks := [] }
    else s
  { s with activeRemoteUsers := mapDelete s.activeRemoteUsers participantId }

/-- `hasRemoteUserConnected` (part_013 lines 861–863). -/
def hasRemoteUserConnected (s : ConnState) : Bool :=
  s.hasRemoteUser || !s.activeRemoteUsers.isEmpty

/-- `getConnectionState` (part_013 lines 866–868). -/
def getConnectionState (s : ConnState) : String :=
  s.connectionState

/-- Number of `offer` envelopes this engine has handed to the signaling
callback. -/
def offersSent (s : ConnState) : Nat :=
  (s.outbox.filter (fun d => decide (d.type = "offer"))).length

/-- The queued-but-not-yet-applied candidates from `sender` (empty when the
sender has no queue). -/
def pendingFor (s : ConnState) (sender : String) : List Nat :=
  (mapGet s.pendingIceCandidates sender).getD []

/-- A fresh engine as the constructor leaves it (before any envelope). -/
def initConn (uid dn : String) : ConnState :=
  { userId := uid, displayName := dn }

/-- A burst of ice-candidate envelopes from one sender, delivered in order. -/
def deliverCandidates (s : ConnState) (sender : String) (cs : List Nat) (now : Nat) :
    ConnState :=
  cs.foldl (fun st c => handleIceCandidate st c sender now) s

/-- `handleRenegotiationRequest` (part_013 lines 366–371). -/
def handleRenegotiationRequest (s : ConnState) (senderId : String) (baseSdp : Sdp) :
    ConnState :=
  if s.remotePeerId = some senderId then createOffer s baseSdp else s

end P13

/-! ## The `useSignalingHandler` hooks (part_005 and part_007) -/

namespace SH

/-- Oracle for the SDP blobs the browser generates when the dispatched
handlers reach `createOffer` / `createAnswer`. -/
structure Oracle where
  offerSdp : Sdp := []
  answerSdp : Sdp := []
  deriving Repr, DecidableEq

/-- The dispatch switch shared by both handler revisions (part_005 lines
49–103, part_007 lines 45–97): route the envelope to the engine's handler.
The participants-list side effects live in the `PT` model. -/
def dispatch (conn : P13.ConnState) (d : SignalingData) (now : Nat) (oracle : Oracle) :
    P13.ConnState :=
  if d.type = "offer" then
    P13.handleOffer conn (d.sdp.getD []) d.sender d.metadata now oracle.answerSdp
  else if d.type = "answer" then
    P13.handleAnswer conn (d.sdp.getD []) d.sender d.metadata now
  else if d.type = "ice-candidate" then
    match d.candidate with
    | some c => P13.handleIceCandidate conn c d.sender now
    | none => conn
  else if d.type = "presence" then
    P13.handlePresence conn d.sender d.metadata now oracle.offerSdp
  else if d.type = "status-update" then
    P13.handleStatusUpdate conn d.sender d.metadata now
  else if d.type = "participant-left" then
    if d.sender ≠ conn.userId then P13.handleParticipantLeft conn d.sender else conn
  else if d.type = "renegotiate" then
    if d.sender ≠ conn.userId
    then P13.handleRenegotiationRequest conn d.sender oracle.offerSdp
    else conn
  else conn

/-- State of a signaling-handler hook: the processed-message-id cache
(`processedMessages`) and the engine it drives. -/
structure St where
  processed : List String := []
  conn : P13.ConnState
  deriving Repr, DecidableEq

/-- The part_007 message id (line 31): `type-sender-timestamp`, where a
missing or `0` (JS-falsy) timestamp is replaced by `Date.now()`. -/
def messageId (d : SignalingData) (now : Nat) : String :=
  d.type ++ "-" ++ d.sender ++ "-"
    ++ toString (match d.timestamp with
                 | some t => if t = 0 then now else t
                 | none => now)

/-- The part_007 handler (lines 28–41): skip any envelope whose id is cached
— presence included — otherwise cache the id and dispatch. -/
def handle7 (s : St) (d : SignalingData) (now : Nat) (oracle : Oracle) : St :=
  if messageId d now ∈ s.processed then s
  else { processed := s.processed ++ [messageId d now],
         conn := dispatch s.conn d now oracle }

/-- The part_005 message id (line 31): the part_007 id with a random suffix
appended; `nonce` stands for the `Math.random()` component of one delivery. -/
def messageId5 (d : SignalingData) (now : Nat) (nonce : String) : String :=
  messageId d now ++ "-" ++ nonce

/-- The part_005 handler (lines 28–44): skip only when the id is cached and
the envelope is not presence; cache the id only for non-presence; dispatch. -/
def handle5 (s : St) (d : SignalingData) (now : Nat) (nonce : String) (oracle : Oracle) :
    St :=
  if messageId5 d now nonce ∈ s.processed ∧ d.type ≠ "presence" then s
  else if d.type ≠ "presence" then
    { processed := s.processed ++ [messageId5 d now nonce],
      conn := dispatch s.conn d now oracle }
  else { s with conn := dispatch s.conn d now oracle }

end SH

/-! ## The webrtc.ts `WebRTCConnection`: timers and `close` -/

namespace WC

/-- Kinds of timers the webrtc.ts engine schedules. -/
inductive TimerKind
  | reconnect
  | presenceCheck
  | offerRetry
  | offerHandleRetry
  | iceRestart
  deriving Repr, DecidableEq

/-- State of the webrtc.ts `WebRTCConnection`, with the host's pending-timer
table explicit: `pendingTimers` holds every scheduled, not yet fired, not yet
cancelled timer; the engine itself stores only the ids of the reconnect timer
and the presence interval. -/
structure St where
  peerConnectionOpen : Bool := true
  connectionState : String := "new"
  hasRemoteUser : Bool := false
  remotePeerId : Option String := none
  remoteDisplayName : Option String := none
  localStreamTracks : Option (List Nat) := none
  reconnectTimer : Option Nat := none
  presenceCheckInterval : Option Nat := none
  pendingTimers : List (Nat × TimerKind) := []
  nextTimerId : Nat := 0
  deriving Repr, DecidableEq

/-- `window.setTimeout` / `window.setInterval`: allocate an id, schedule. -/
def schedule (s : St) (k : TimerKind) : St × Nat :=
  ({ s with pendingTimers := s.pendingTimers ++ [(s.nextTimerId, k)],
            nextTimerId := s.nextTimerId + 1 }, s.nextTimerId)

/-- `window.clearTimeout` / `window.clearInterval`. -/
def cancel (s : St) (id : Nat) : St :=
  { s with pendingTimers := s.pendingTimers.filter (fun e => !(decide (e.1 = id))) }

/-- `startPresenceCheck` (webrtc.ts lines 991–1016): the interval id is
stored. -/
def startPresenceCheck (s : St) : St :=
  let p := schedule s TimerKind.presenceCheck
  { p.1 with presenceCheckInterval := some p.2 }

/-- `attemptReconnect` (webrtc.ts lines 1029–1073): clear any previous
reconnect timer, schedule a new one, store its id. -/
def attemptReconnect (s : St) : St :=
  let s := match s.reconnectTimer with
           | some id => cancel s id
           | none => s
  let p := schedule s TimerKind.reconnect
  { p.1 with reconnectTimer := some p.2 }

/-- The 2 s retry `setTimeout` in `createOffer`'s catch (webrtc.ts lines
1133–1137, part_013 lines 507–511): its id is never stored anywhere. -/
def createOfferFailure (s : St) : St :=
  (schedule s TimerKind.offerRetry).1

/-- The 2 s retry `setTimeout` in `handleOffer`'s catch (webrtc.ts lines
1231–1235): also untracked. -/
def handleOfferFailure (s : St) : St :=
  (schedule s TimerKind.offerHandleRetry).1

/-- The ICE-restart `setTimeout` of `onicegatheringstatechange` (webrtc.ts
lines 878–886, part_013 lines 153–162): also untracked. -/
def iceRestartDelay (s : St) : St :=
  (schedule s TimerKind.iceRestart).1

/-- `close` (webrtc.ts lines 508–534, and identically lines 1402–1428):
cancel the two tracked timers, close and drop the peer connection, stop and
drop all local tracks, reset the reported state to `"new"` and forget the
remote peer. -/
def close (s : St) : St :=
  let s := match s.reconnectTimer with
           | some id => { cancel s id with reconnectTimer := none }
           | none => s
  let s := match s.presenceCheckInterval with
           | some id => { cancel s id with presenceCheckInterval := none }
           | none => s
  { s with peerConnectionOpen := false,
           localStreamTracks := none,
           hasRemoteUser := false,
           connectionState := "new",
           remotePeerId := none,
           remoteDisplayName := none }

/-- The `initialize` method, abridged to the lifecycle-relevant effect: a
fresh peer connection object exists again. -/
def initPeerConnection (s : St) : St :=
  { s with peerConnectionOpen := true }

/-- The constructor: initialization then `startPresenceCheck()`. -/
def mkEngine : St := startPresenceCheck (initPeerConnection {})

end WC

/-! ## The part_013 reconnection dynamics (claim C4) -/

namespace RC

/-- The retry-relevant state of the part_013 engine: the reported connection
state, whether a reconnect timer is armed, the ICE retry counter together
with the number of armed-but-not-yet-fired ICE-restart timers, and ghost
counters for executed reconnect attempts and surfaced terminal failures
(the source has no terminal-failure path, so nothing ever increments the
latter). -/
structure St where
  connectionState : String := "new"
  reconnectPending : Bool := false
  iceRetryCount : Nat := 0
  pendingIceRestarts : Nat := 0
  reconnectAttempts : Nat := 0
  terminalFailures : Nat := 0
  deriving Repr, DecidableEq

/-- Events that drive the retry machinery. -/
inductive Ev
  | connStateChange (newState : String)
  | reconnectTimerFire
  | iceGatheringComplete
  | iceRestartTimerFire
  deriving Repr, DecidableEq

/-- `maxIceRetries` (part_013 line 89). -/
def maxIceRetries : Nat := 5

/-- One step.  `connStateChange` stores the browser state and on
`failed`/`disconnected` calls `attemptReconnect`, which (re)arms the
reconnect timer (part_013 lines 166–181 and 374–419); a `connected`
transition resets the ICE retry counter (line 185).  `reconnectTimerFire`
executes the timer body — restartIce + createOffer + presence, counted as one
reconnect attempt — with no attempt counter and no cap in the source.
`iceGatheringComplete` checks `iceRetryCount < maxIceRetries` at scheduling
time (line 156) and arms a 2 s ICE-restart `setTimeout`; the increment of
`iceRetryCount` happens only in that timer's body (lines 157–161), modelled
by the separate `iceRestartTimerFire` event, which does not re-check the
counter — so two gathering-complete events arriving before either timer
fires both get armed under the same stale count. -/
def step (s : St) (e : Ev) : St :=
  match e with
  | Ev.connStateChange ns =>
      let s := { s with connectionState := ns }
      let s := if ns = "failed" ∨ ns = "disconnected"
               then { s with reconnectPending := true }
               else s
      if ns = "connected" then { s with iceRetryCount := 0 } else s
  | Ev.reconnectTimerFire =>
      if s.reconnectPending
      then { s with reconnectPending := false,
                    reconnectAttempts := s.reconnectAttempts + 1 }
      else s
  | Ev.iceGatheringComplete =>
      if s.connectionState ≠ "connected" ∧ s.iceRetryCount < maxIceRetries
      then { s with pendingIceRestarts := s.pendingIceRestarts + 1 }
      else s
  | Ev.iceRestartTimerFire =>
      if s.pendingIceRestarts > 0
      then { s with pendingIceRestarts := s.pendingIceRestarts - 1,
                    iceRetryCount := s.iceRetryCount + 1 }
      else s

/-- A fresh engine. -/
def init : St := {}

def run (s : St) (evs : List Ev) : St := evs.foldl step s

/-- One failure round: the connection reports `failed`, the reconnect timer
fires, the attempt fails again (next round repeats). -/
def failRound : List Ev := [Ev.connStateChange "failed", Ev.reconnectTimerFire]

/-- `n` consecutive failure rounds. -/
def failRounds : Nat → List Ev
  | 0 => []
  | n + 1 => failRound ++ failRounds n

end RC

/-! ## The webrtc.ts `SignalingService` (claims C7 and C9) -/

namespace Sig

/-- What the try-block of `send` can raise; the catch distinguishes only
storage-quota exhaustion. -/
inductive SigErr
  | quota
  | other
  deriving Repr, DecidableEq

/-- State of a `SignalingService` and its channels: the localStorage-backed
room log, the BroadcastChannel posts (a trace), the sessionStorage latest
slot, and the participant cache. -/
structure St where
  stored : List SignalingData := []
  bcPosts : List SignalingData := []
  sessionLatest : Option SignalingData := none
  participantCache : List (String × Nat) := []
  deriving Repr, DecidableEq

/-- JS `array.slice(-n)`. -/
def takeLast {α : Type} (n : Nat) (l : List α) : List α := l.drop (l.length - n)

/-- The stamping step of `send`: spread the envelope, overwrite `timestamp`
with `Date.now()` and `displayName` with the service's display name
(webrtc.ts lines 1509–1513). -/
def stamp (d : SignalingData) (now : Nat) (displayName : String) : SignalingData :=
  { d with timestamp := some now, displayName := some displayName }

/-- The reset notice `cleanupStorage` sends after clearing the log
(webrtc.ts lines 1562–1566). -/
def cleanupMsg (selfId : String) (now : Nat) : SignalingData :=
  { type := "storage-cleanup", sender := selfId, timestamp := some now }

/-- The try-block of `send` (webrtc.ts lines 1506–1543): post to the
broadcast channel, append the stamped envelope to the log keeping only the
last 200 entries — `localStorage.setItem` raises a quota error when `quotaOk`
rejects the new log — update the participant cache for presence, mirror the
latest message into session storage. -/
def trySend (quotaOk : List SignalingData → Bool) (displayName : String)
    (s : St) (d : SignalingData) (now : Nat) : Except SigErr St :=
  let m := stamp d now displayName
  let s := { s with bcPosts := s.bcPosts ++ [m] }
  let newLog := takeLast 200 (s.stored ++ [m])
  if quotaOk newLog then
    let s := { s with stored := newLog }
    let s := if d.type = "presence"
             then { s with participantCache := mapSet s.participantCache d.sender now }
             else s
    Except.ok { s with sessionLatest := some m }
  else Except.error SigErr.quota

/-- `send` with its catch (webrtc.ts lines 1544–1552) and `cleanupStorage`
(lines 1556–1570): a quota error clears the log and re-sends one
`storage-cleanup` notice through `send` itself — `fuel` bounds that
recursion, and fuel 0 is the `cleanupStorage` catch that logs and gives up.
Any other error is logged and swallowed.  In every case the caller gets a
state back, never an exception. -/
def send (quotaOk : List SignalingData → Bool) (selfId displayName : String) :
    Nat → St → SignalingData → Nat → St
  | 0, s, _, _ => s
  | fuel + 1, s, d, now =>
    match trySend quotaOk displayName s d now with
    | Except.ok s' => s'
    | Except.error SigErr.quota =>
        send quotaOk selfId displayName fuel
          { s with bcPosts := s.bcPosts ++ [stamp d now displayName], stored := [] }
          (cleanupMsg selfId now) now
    | Except.error SigErr.other => s

/-- One `participant-left` envelope as `startParticipantCleanup` sends it
(webrtc.ts lines 1610–1614). -/
def participantLeftMsg (pid : String) (now : Nat) : SignalingData :=
  { type := "participant-left", sender := pid, timestamp := some now }

/-- The body of `startParticipantCleanup`'s interval (webrtc.ts lines
1601–1620): every cached participant silent for more than 8 s, other than
self, is removed from the cache and a `participant-left` envelope is sent for
it.  Returns the new cache and the envelopes sent. -/
def participantCleanup (cache : List (String × Nat)) (selfId : String) (now : Nat) :
    List (String × Nat) × List SignalingData :=
  (cache.filter (fun e => !(decide (now - e.2 > 8000 ∧ e.1 ≠ selfId))),
   (cache.filter (fun e => decide (now - e.2 > 8000 ∧ e.1 ≠ selfId))).map
     (fun e => participantLeftMsg e.1 now))

end Sig

/-! ## The `useParticipantTracking` hook (part_004) -/

namespace PT

/-- A `RemoteParticipant` as tracked by `useParticipantTracking`
(part_004). -/
structure RemoteParticipant where
  userId : String
  displayName : String
  isCameraOn : Bool := false
  isMicOn : Bool := false
  isScreenSharing : Bool := false
  connectionState : String := "new"
  joinedAt : Nat := 0
  deriving Repr, DecidableEq

/-- `removeParticipant` (part_004 lines 53–68): drop the participant with the
given id (the toast is UI-only). -/
def removeParticipant (prev : List RemoteParticipant) (participantId : String) :
    List RemoteParticipant :=
  prev.filter (fun p => !(decide (p.userId = participantId)))

/-- The stale sweep of part_004 (lines 70–87): keep only participants whose
`joinedAt` — refreshed to `Date.now()` by every update — is at most 45 s
old. -/
def sweepStale (prev : List RemoteParticipant) (now : Nat) : List RemoteParticipant :=
  prev.filter (fun p => !(decide (now - p.joinedAt > 45000)))

end PT

/-! ## Lemmas -/

theorem charsPrefix_of_append {p q l : List Char}
    (h : charsPrefix (p ++ q) l = true) : charsPrefix p l = true := by
  induction p generalizing l with
  | nil => rfl
  | cons c cs ih =>
    cases l with
    | nil => simp [charsPrefix] at h
    | cons d ds =>
      simp only [List.cons_append, charsPrefix, Bool.and_eq_true] at h ⊢
      exact ⟨h.1, ih h.2⟩

/-- Two prefixes of the same list are comparable. -/
theorem charsPrefix_total {p q l : List Char}
    (hp : charsPrefix p l = true) (hq : charsPrefix q l = true) :
    charsPrefix p q = true ∨ charsPrefix q p = true := by
  induction l generalizing p q with
  | nil =>
    cases p with
    | nil => exact Or.inl rfl
    | cons c cs => simp [charsPrefix] at hp
  | cons d ds ih =>
    cases p with
    | nil => exact Or.inl rfl
    | cons c cs =>
      cases q with
      | nil => exact Or.inr rfl
      | cons e es =>
        simp only [charsPrefix, Bool.and_eq_true, decide_eq_true_eq] at hp hq
        rcases ih hp.2 hq.2 with h | h
        · exact Or.inl (by simp [charsPrefix, hp.1, hq.1, h])
        · exact Or.inr (by simp [charsPrefix, hp.1, hq.1, h])

theorem charsLt_asymm : ∀ {x y : List Char}, charsLt x y = true → charsLt y x = false
  | [], [], h => by simp [charsLt] at h
  | [], _ :: _, _ => rfl
  | _ :: _, [], h => by simp [charsLt] at h
  | c :: cs, d :: ds, h => by
    simp only [charsLt, Bool.or_eq_true, Bool.and_eq_true, decide_eq_true_eq] at h
    rcases h with h | ⟨he, h⟩
    · simp [charsLt, lt_asymm h, (ne_of_lt h).symm]
    · subst he
      simp [charsLt, lt_irrefl, charsLt_asymm h]

theorem charsLt_ne : ∀ {x y : List Char}, charsLt x y = true → x ≠ y
  | [], [], h => by simp [charsLt] at h
  | [], _ :: _, _ => by simp
  | _ :: _, [], h => by simp [charsLt] at h
  | c :: cs, d :: ds, h => by
    simp only [charsLt, Bool.or_eq_true, Bool.and_eq_true, decide_eq_true_eq] at h
    rcases h with h | ⟨he, h⟩
    · exact by simp [ne_of_lt h]
    · intro hcontra
      exact charsLt_ne h (by injection hcontra)

theorem jsStringLt_asymm {a b : String} (h : jsStringLt a b = true) :
    jsStringLt b a = false := charsLt_asymm h

theorem jsStringLt_ne {a b : String} (h : jsStringLt a b = true) : a ≠ b :=
  fun hc => charsLt_ne h (by rw [hc])

theorem mapGet_set_self {α : Type} (m : List (String × α)) (k : String) (v : α) :
    mapGet (mapSet m k v) k = some v := by
  induction m with
  | nil => simp [mapGet, mapSet]
  | cons e es ih =>
    by_cases h : e.1 = k
    · simp [mapGet, mapSet, h]
    · simp [mapGet, mapSet, h, ih]

theorem mapGet_set_other {α : Type} (m : List (String × α)) (k k' : String) (v : α)
    (h : k' ≠ k) : mapGet (mapSet m k v) k' = mapGet m k' := by
  induction m with
  | nil => simp [mapGet, mapSet, Ne.symm h]
  | cons e es ih =>
    by_cases he : e.1 = k
    · simp [mapGet, mapSet, he, h, Ne.symm h]
    · by_cases he' : e.1 = k'
      · simp [mapGet, mapSet, he, he', h]
      · simp [mapGet, mapSet, he, he', ih]

theorem mapSet_ne_nil {α : Type} (m : List (String × α)) (k : String) (v : α) :
    mapSet m k v ≠ [] := by
  cases m with
  | nil => simp [mapSet]
  | cons e es =>
    by_cases h : e.1 = k <;> simp [mapSet, h]

theorem mapGet_delete_self {α : Type} (m : List (String × α)) (k : String) :
    mapGet (mapDelete m k) k = none := by
  induction m with
  | nil => rfl
  | cons e es ih =>
    by_cases h : e.1 = k
    · simpa [mapDelete, List.filter_cons, h] using ih
    · simpa [mapDelete, List.filter_cons, mapGet, h] using ih

theorem mapGet_delete_other {α : Type} (m : List (String × α)) (k k' : String)
    (h : k' ≠ k) : mapGet (mapDelete m k) k' = mapGet m k' := by
  induction m with
  | nil => rfl
  | cons e es ih =>
    by_cases he : e.1 = k
    · have he' : e.1 ≠ k' := fun hc => h (hc ▸ he)
      simpa [mapDelete, List.filter_cons, mapGet, he, he', h, Ne.symm h] using ih
    · by_cases he' : e.1 = k'
      · simp [mapDelete, List.filter_cons, mapGet, he, he', h, Ne.symm h]
      · simpa [mapDelete, List.filter_cons, mapGet, he, he', h, Ne.symm h] using ih

/-! ## Supporting lemmas for the part_013 engine -/

theorem mapSet_isEmpty_false {α : Type} (m : List (String × α)) (k : String) (v : α) :
    (mapSet m k v).isEmpty = false := by
  cases h : mapSet m k v with
  | nil => exact absurd h (mapSet_ne_nil m k v)
  | cons e es => rfl

namespace P13

theorem queuePush_get_self (m : List (String × List Nat)) (k : String) (c : Nat) :
    mapGet (queuePush m k c) k = some ((mapGet m k).getD [] ++ [c]) := by
  unfold queuePush
  cases h : mapGet m k with
  | none => simp [mapGet_set_self]
  | some q => simp [mapGet_set_self]

theorem queuePush_get_other (m : List (String × List Nat)) (k k' : String) (c : Nat)
    (h : k' ≠ k) : mapGet (queuePush m k c) k' = mapGet m k' := by
  unfold queuePush
  cases mapGet m k with
  | none => simp [mapGet_set_other _ _ _ _ h]
  | some q => simp [mapGet_set_other _ _ _ _ h]

theorem flushPending_applied (s : ConnState) (sender : String) :
    (flushPending s sender).appliedCandidates = s.appliedCandidates ++ pendingFor s sender := by
  unfold flushPending pendingFor
  cases h : mapGet s.pendingIceCandidates sender with
  | none => simp
  | some q =>
    cases q with
    | nil => simp
    | cons c cs => simp

theorem flushPending_pendingFor_self (s : ConnState) (sender : String) :
    pendingFor (flushPending s sender) sender = [] := by
  unfold flushPending pendingFor
  cases h : mapGet s.pendingIceCandidates sender with
  | none => simp [h]
  | some q =>
    cases q with
    | nil => simp [h]
    | cons c cs => simp [mapGet_delete_self]

theorem flushPending_pendingFor_other (s : ConnState) (sender other : String)
    (h : other ≠ sender) :
    pendingFor (flushPending s sender) other = pendingFor s other := by
  unfold flushPending pendingFor
  cases hq : mapGet s.pendingIceCandidates sender with
  | none => simp
  | some q =>
    cases q with
    | nil => simp
    | cons c cs => simp [mapGet_delete_other _ _ _ h]

theorem flushPending_remoteDescription (s : ConnState) (sender : String) :
    (flushPending s sender).remoteDescription = s.remoteDescription := by
  unfold flushPending
  cases mapGet s.pendingIceCandidates sender with
  | none => rfl
  | some q =>
    cases q with
    | nil => rfl
    | cons c cs => rfl

/-- One queued step of `handleIceCandidate` while no remote description is
set. -/
theorem handleIceCandidate_queues (s : ConnState) (c : Nat) (sender : String) (now : Nat)
    (h : s.remoteDescription = none) :
    pendingFor (handleIceCandidate s c sender now) sender = pendingFor s sender ++ [c]
    ∧ (handleIceCandidate s c sender now).appliedCandidates = s.appliedCandidates
    ∧ (handleIceCandidate s c sender now).remoteDescription = none := by
  unfold handleIceCandidate pendingFor
  simp [h, queuePush_get_self]

theorem deliverCandidates_queues (s : ConnState) (sender : String) (cs : List Nat)
    (now : Nat) (h : s.remoteDescription = none) :
    pendingFor (deliverCandidates s sender cs now) sender = pendingFor s sender ++ cs
    ∧ (deliverCandidates s sender cs now).appliedCandidates = s.appliedCandidates
    ∧ (deliverCandidates s sender cs now).remoteDescription = none := by
  induction cs generalizing s with
  | nil =>
    exact ⟨by simp [deliverCandidates], by simp [deliverCandidates],
           by simpa [deliverCandidates] using h⟩
  | cons c cs ih =>
    have step := handleIceCandidate_queues s c sender now h
    have tail := ih (handleIceCandidate s c sender now) step.2.2
    refine ⟨?_, ?_, ?_⟩
    · show pendingFor (deliverCandidates (handleIceCandidate s c sender now) sender cs now) sender
          = pendingFor s sender ++ c :: cs
      rw [tail.1, step.1, List.append_assoc]
      rfl
    · show (deliverCandidates (handleIceCandidate s c sender now) sender cs now).appliedCandidates
          = s.appliedCandidates
      rw [tail.2.1, step.2.1]
    · exact tail.2.2

theorem handleOffer_fields (s : ConnState) (offer : Sdp) (sender : String)
    (md : Option Meta) (now : Nat) (ansBase : Sdp) :
    (handleOffer s offer sender md now ansBase).remoteDescription = some offer
    ∧ (handleOffer s offer sender md now ansBase).appliedCandidates
        = s.appliedCandidates ++ pendingFor s sender
    ∧ pendingFor (handleOffer s offer sender md now ansBase) sender = []
    ∧ ∀ other, other ≠ sender →
        pendingFor (handleOffer s offer sender md now ansBase) other = pendingFor s other := by
  unfold handleOffer
  refine ⟨?_, ?_, ?_, ?_⟩
  · rw [flushPending_remoteDescription]
  · rw [flushPending_applied]
    simp [pendingFor]
  · rw [flushPending_pendingFor_self]
  · intro other hother
    rw [flushPending_pendingFor_other _ _ _ hother]
    simp [pendingFor]

theorem handleAnswer_fields (s : ConnState) (answer : Sdp) (sender : String)
    (md : Option Meta) (now : Nat) :
    (handleAnswer s answer sender md now).remoteDescription = some answer
    ∧ (handleAnswer s answer sender md now).appliedCandidates
        = s.appliedCandidates ++ pendingFor s sender
    ∧ pendingFor (handleAnswer s answer sender md now) sender = [] := by
  unfold handleAnswer
  refine ⟨?_, ?_, ?_⟩
  · rw [flushPending_remoteDescription]
  · rw [flushPending_applied]
    simp [pendingFor]
  · rw [flushPending_pendingFor_self]

end P13

/-! ## Claim C1: glare freedom under the lower-id tie-break -/

/-- C1: for two part_013 engines A and B whose connection state is still
`new`/`connecting`, with `A.userId` lexicographically lower than `B.userId`,
delivering B's presence envelope to A makes A send exactly one offer (appended
to its outbox, with A as sender), while delivering A's presence envelope to B
makes B send nothing — exactly one offer, produced by the lower id. -/
theorem glare_freedom_tiebreak
    (a b : P13.ConnState) (mb ma : Option Meta) (na nb : Nat) (sa sb : Sdp)
    (hlt : jsStringLt a.userId b.userId = true)
    (ha : a.connectionState = "new" ∨ a.connectionState = "connecting")
    (hb : b.connectionState = "new" ∨ b.connectionState = "connecting") :
    (P13.handlePresence a b.userId mb na sa).outbox
        = a.outbox ++ [P13.offerEnvelope a.userId a.displayName (applyBitrates sa)]
      ∧ (P13.handlePresence b a.userId ma nb sb).outbox = b.outbox := by
  have hne : b.userId ≠ a.userId := Ne.symm (jsStringLt_ne hlt)
  have hne' : a.userId ≠ b.userId := jsStringLt_ne hlt
  constructor
  · rcases ha with ha | ha <;> cases mb <;>
      simp [P13.handlePresence, P13.createOffer, P13.offerEnvelope,
            P13.shouldInitiateConnection, hne, hlt, ha]
  · have hasym := jsStringLt_asymm hlt
    rcases hb with hb | hb <;> cases ma <;>
      simp [P13.handlePresence, P13.shouldInitiateConnection, hne', hasym, hb]

/-- Witness for C1 at concrete inputs: `"a1" < "b2"`, both engines fresh. -/
theorem glare_freedom_tiebreak_witness :
    (P13.handlePresence (P13.initConn "a1" "Alice") "b2"
        (some { displayName := some "Bob" }) 1 ["v=0"]).outbox
      = [P13.offerEnvelope "a1" "Alice" (applyBitrates ["v=0"])]
    ∧ (P13.handlePresence (P13.initConn "b2" "Bob") "a1"
        (some { displayName := some "Alice" }) 2 ["v=0"]).outbox = [] := by
  have h := glare_freedom_tiebreak (P13.initConn "a1" "Alice") (P13.initConn "b2" "Bob")
      (some { displayName := some "Bob" }) (some { displayName := some "Alice" })
      1 2 ["v=0"] ["v=0"] (by decide) (Or.inl rfl) (Or.inl rfl)
  simpa [P13.initConn] using h

/-! ## Claim C2: per-sender ICE-candidate queueing and FIFO flush -/

/-- C2 counterexample: the queueing test is `remoteDescription === null`,
which is global, not per-sender.  After an offer from `"x"` has been applied,
a candidate arriving from a different sender `"y"` — from whom no remote
description was ever applied — is applied immediately instead of being queued,
refuting the claim's premise-conclusion pair at this concrete input. -/
theorem ice_candidate_cross_sender_counterexample :
    (P13.handleIceCandidate
        (P13.handleOffer (P13.initConn "me" "Me") ["v=0"] "x" none 1 ["v=0"])
        42 "y" 2).appliedCandidates = [42]
    ∧ P13.pendingFor
        (P13.handleIceCandidate
          (P13.handleOffer (P13.initConn "me" "Me") ["v=0"] "x" none 1 ["v=0"])
          42 "y" 2) "y" = [] := by
  constructor <;> rfl

/-- C2 (amended): while the connection has no remote description at all,
every ice-candidate envelope is queued on its sender's pending queue in
arrival order and none of them is handed to `addIceCandidate`; as soon as
`handleOffer` or `handleAnswer` applies a remote description from that sender,
every candidate queued for that sender is applied in FIFO order, the queue is
emptied, and other senders' queues are untouched. -/
theorem ice_candidate_queue_fifo
    (s : P13.ConnState) (sender : String) (cs : List Nat) (offer ansBase : Sdp)
    (md : Option Meta) (now now2 : Nat)
    (h : s.remoteDescription = none) :
    (P13.pendingFor (P13.deliverCandidates s sender cs now) sender
        = P13.pendingFor s sender ++ cs
      ∧ (P13.deliverCandidates s sender cs now).appliedCandidates = s.appliedCandidates
      ∧ (P13.deliverCandidates s sender cs now).remoteDescription = none)
    ∧ ((P13.handleOffer (P13.deliverCandidates s sender cs now) offer sender md now2 ansBase).remoteDescription
          = some offer
      ∧ (P13.handleOffer (P13.deliverCandidates s sender cs now) offer sender md now2 ansBase).appliedCandidates
          = s.appliedCandidates ++ (P13.pendingFor s sender ++ cs)
      ∧ P13.pendingFor
          (P13.handleOffer (P13.deliverCandidates s sender cs now) offer sender md now2 ansBase) sender = []
      ∧ ∀ other, other ≠ sender →
          P13.pendingFor
            (P13.handleOffer (P13.deliverCandidates s sender cs now) offer sender md now2 ansBase) other
          = P13.pendingFor (P13.deliverCandidates s sender cs now) other)
    ∧ ((P13.handleAnswer (P13.deliverCandidates s sender cs now) offer sender md now2).remoteDescription
          = some offer
      ∧ (P13.handleAnswer (P13.deliverCandidates s sender cs now) offer sender md now2).appliedCandidates
          = s.appliedCandidates ++ (P13.pendingFor s sender ++ cs)
      ∧ P13.pendingFor
          (P13.handleAnswer (P13.deliverCandidates s sender cs now) offer sender md now2) sender = []) := by
  obtain ⟨hq, happ, hrd⟩ := P13.deliverCandidates_queues s sender cs now h
  obtain ⟨ho1, ho2, ho3, ho4⟩ :=
    P13.handleOffer_fields (P13.deliverCandidates s sender cs now) offer sender md now2 ansBase
  obtain ⟨ha1, ha2, ha3⟩ :=
    P13.handleAnswer_fields (P13.deliverCandidates s sender cs now) offer sender md now2
  refine ⟨⟨hq, happ, hrd⟩, ⟨ho1, ?_, ho3, ho4⟩, ⟨ha1, ?_, ha3⟩⟩
  · rw [ho2, happ, hq]
  · rw [ha2, happ, hq]

/-- Witness for C2 (amended) at concrete inputs: two candidates queued before
the offer, flushed in FIFO order by `handleOffer`. -/
theorem ice_candidate_queue_fifo_witness :
    P13.pendingFor (P13.deliverCandidates (P13.initConn "me" "Me") "peer" [10, 20] 5) "peer"
        = [10, 20]
    ∧ (P13.deliverCandidates (P13.initConn "me" "Me") "peer" [10, 20] 5).appliedCandidates = []
    ∧ (P13.handleOffer (P13.deliverCandidates (P13.initConn "me" "Me") "peer" [10, 20] 5)
        ["v=0"] "peer" none 6 ["v=0"]).appliedCandidates = [10, 20]
    ∧ P13.pendingFor
        (P13.handleOffer (P13.deliverCandidates (P13.initConn "me" "Me") "peer" [10, 20] 5)
          ["v=0"] "peer" none 6 ["v=0"]) "peer" = [] := by
  have h := ice_candidate_queue_fifo (P13.initConn "me" "Me") "peer" [10, 20]
      ["v=0"] ["v=0"] none 5 6 rfl
  exact ⟨h.1.1, h.1.2.1, h.2.1.2.1, h.2.1.2.2.1⟩

/-! ## Claim C10: a single envelope makes the engine report a remote user -/

/-- C10: `hasRemoteUserConnected` is `hasRemoteUser || activeRemoteUsers ≠ ∅`,
and `handlePresence`, `handleStatusUpdate` and `handleIceCandidate` each
insert the (non-self) sender into `activeRemoteUsers`; hence one presence,
status-update or ice-candidate envelope from any other sender makes the engine
report a remote user as connected while `getConnectionState` still returns
`"new"` and the remote description is untouched. -/
theorem remote_reported_without_negotiation
    (s : P13.ConnState) (sender : String) (c now : Nat) (md : Option Meta) (baseSdp : Sdp)
    (hne : sender ≠ s.userId) (hstate : s.connectionState = "new") :
    (P13.hasRemoteUserConnected (P13.handlePresence s sender md now baseSdp) = true
      ∧ P13.getConnectionState (P13.handlePresence s sender md now baseSdp) = "new")
    ∧ (P13.hasRemoteUserConnected (P13.handleStatusUpdate s sender md now) = true
      ∧ P13.getConnectionState (P13.handleStatusUpdate s sender md now) = "new")
    ∧ (P13.hasRemoteUserConnected (P13.handleIceCandidate s c sender now) = true
      ∧ P13.getConnectionState (P13.handleIceCandidate s c sender now) = "new"
      ∧ (P13.handleIceCandidate s c sender now).remoteDescription = s.remoteDescription) := by
  refine ⟨⟨?_, ?_⟩, ⟨?_, ?_⟩, ?_, ?_, ?_⟩
  · cases md <;>
      simp [P13.handlePresence, P13.createOffer, P13.hasRemoteUserConnected, hne,
            mapSet_isEmpty_false] <;>
      split_ifs <;> simp [mapSet_ne_nil]
  · cases md <;>
      simp [P13.handlePresence, P13.createOffer, P13.getConnectionState, hne, hstate] <;>
      split_ifs <;> simp [hstate]
  · simp [P13.handleStatusUpdate, P13.hasRemoteUserConnected, hne, mapSet_isEmpty_false]
  · simp [P13.handleStatusUpdate, P13.getConnectionState, hne, hstate]
  · cases hrd : s.remoteDescription <;>
      simp [P13.handleIceCandidate, P13.hasRemoteUserConnected, hrd, mapSet_isEmpty_false]
  · cases hrd : s.remoteDescription <;>
      simp [P13.handleIceCandidate, P13.getConnectionState, hrd, hstate]
  · cases hrd : s.remoteDescription <;>
      simp [P13.handleIceCandidate, hrd]

/-- Witness for C10 at a concrete input: one status-update envelope from
`"peer"` flips `hasRemoteUserConnected` on a fresh engine in state `"new"`. -/
theorem remote_reported_without_negotiation_witness :
    P13.hasRemoteUserConnected
        (P13.handleStatusUpdate (P13.initConn "me" "Me") "peer" none 3) = true
    ∧ P13.getConnectionState
        (P13.handleStatusUpdate (P13.initConn "me" "Me") "peer" none 3) = "new" := by
  have h := remote_reported_without_negotiation (P13.initConn "me" "Me") "peer" 0 3 none []
      (by decide) rfl
  exact h.2.1

/-! ## Lemmas about `setMediaBitrate` (claim C8) -/

theorem lineStartsWith_mono {l p q : String} (h : lineStartsWith l (p ++ q) = true) :
    lineStartsWith l p = true := by
  unfold lineStartsWith at h ⊢
  have hd : (p ++ q).data = p.data ++ q.data := rfl
  rw [hd] at h
  exact charsPrefix_of_append h

/-- Two string prefixes that are not prefixes of each other never both hold of
the same line. -/
theorem lineStartsWith_exclusive {p q : String}
    (h1 : charsPrefix p.data q.data = false) (h2 : charsPrefix q.data p.data = false) :
    ∀ l, lineStartsWith l p = true → lineStartsWith l q = false := by
  intro l hp
  by_contra hq
  have hq' : lineStartsWith l q = true := by
    cases hqv : lineStartsWith l q with
    | false => exact absurd hqv hq
    | true => rfl
  rcases charsPrefix_total hp hq' with h | h
  · rw [h1] at h
    exact Bool.false_ne_true h
  · rw [h2] at h
    exact Bool.false_ne_true h

/-- A `setMediaBitrate` pass on a media type with no `m=` line is the
identity. -/
theorem setMediaBitrateLines_id (media bline : String) :
    ∀ lines : List String,
      lines.any (fun l => lineStartsWith l ("m=" ++ media)) = false →
      setMediaBitrateLines media bline lines = lines
  | [], _ => rfl
  | l :: ls, h => by
    simp only [List.any_cons, Bool.or_eq_false_iff] at h
    simp [setMediaBitrateLines, h.1, setMediaBitrateLines_id media bline ls h.2]

/-- After `replaceFirstB`, the new `b=AS:` line sits inside the current media
section, provided the section did contain a `b=AS:` line. -/
theorem replaceFirstB_mem_section (bline : String)
    (hb : lineStartsWith bline "m=" = false) :
    ∀ ls : List String,
      (ls.take (sectionLen ls)).any (fun l => lineStartsWith l "b=AS:") = true →
      bline ∈ (replaceFirstB bline ls).take (sectionLen (replaceFirstB bline ls))
  | [], h => by simp [sectionLen] at h
  | x :: tail, h => by
    by_cases hxm : lineStartsWith x "m=" = true
    · simp [sectionLen, hxm] at h
    · have hxm' : lineStartsWith x "m=" = false := by
        cases hv : lineStartsWith x "m=" with
        | false => rfl
        | true => exact absurd hv hxm
      by_cases hxb : lineStartsWith x "b=AS:" = true
      · simp [replaceFirstB, hxb, sectionLen, hb]
      · have hxb' : lineStartsWith x "b=AS:" = false := by
          cases hv : lineStartsWith x "b=AS:" with
          | false => rfl
          | true => exact absurd hv hxb
        have hsl : sectionLen (x :: tail) = sectionLen tail + 1 := by
          simp [sectionLen, hxm']
        rw [hsl, List.take_succ_cons, List.any_cons, hxb', Bool.false_or] at h
        have ih := replaceFirstB_mem_section bline hb tail h
        simp [replaceFirstB, hxb', sectionLen, hxm', List.mem_cons, ih]

/-- The first pass writes its `b=AS:` line into the first `m=<media>`
section. -/
theorem setMediaBitrateLines_sectionContains (media bline : String)
    (hb : lineStartsWith bline "m=" = false) :
    ∀ lines : List String,
      lines.any (fun l => lineStartsWith l ("m=" ++ media)) = true →
      sectionContains media bline (setMediaBitrateLines media bline lines) = true
  | [], h => by simp at h
  | l :: ls, h => by
    by_cases hml : lineStartsWith l ("m=" ++ media) = true
    · simp only [setMediaBitrateLines, hml, if_true]
      simp only [sectionContains, hml, if_true, decide_eq_true_eq]
      unfold applySection
      by_cases hany : (ls.take (sectionLen ls)).any (fun l => lineStartsWith l "b=AS:") = true
      · simp only [hany, if_true]
        exact replaceFirstB_mem_section bline hb ls hany
      · simp only [hany, if_false]
        simp [sectionLen, hb]
    · have hml' : lineStartsWith l ("m=" ++ media) = false := by
        cases hv : lineStartsWith l ("m=" ++ media) with
        | false => rfl
        | true => exact absurd hv hml
      simp only [List.any_cons, hml', Bool.false_or] at h
      simp only [setMediaBitrateLines, hml', if_false]
      simp only [sectionContains, hml', if_false]
      exact setMediaBitrateLines_sectionContains media bline hb ls h

/-- A pass for `media` does not remove any `m=<other>` line (it only inserts a
non-`m=` line or replaces a `b=AS:` line). -/
theorem hasMediaSection_preserved (media other bline : String)
    (hbo : lineStartsWith bline ("m=" ++ other) = false)
    (hrepl : ∀ l, lineStartsWith l "b=AS:" = true →
      lineStartsWith l ("m=" ++ other) = false) :
    ∀ lines : List String,
      hasMediaSection other lines = true →
      hasMediaSection other (setMediaBitrateLines media bline lines) = true := by
  have replaceAux : ∀ ls : List String,
      ls.any (fun l => lineStartsWith l ("m=" ++ other)) = true →
      (replaceFirstB bline ls).any (fun l => lineStartsWith l ("m=" ++ other)) = true := by
    intro ls
    induction ls with
    | nil => intro h; simp at h
    | cons x tail ih =>
      intro h
      by_cases hxb : lineStartsWith x "b=AS:" = true
      · have hxo := hrepl x hxb
        simp only [List.any_cons, hxo, Bool.false_or] at h
        simp [replaceFirstB, hxb, List.any_cons, hbo, h]
      · have hxb' : lineStartsWith x "b=AS:" = false := by
          cases hv : lineStartsWith x "b=AS:" with
          | false => rfl
          | true => exact absurd hv hxb
        simp only [List.any_cons] at h
        rcases Bool.or_eq_true_iff.mp h with hx | htail
        · simp [replaceFirstB, hxb', List.any_cons, hx]
        · simp [replaceFirstB, hxb', List.any_cons, ih htail]
  intro lines
  induction lines with
  | nil => intro h; simp [hasMediaSection] at h
  | cons l ls ih =>
    intro h
    simp only [hasMediaSection, List.any_cons] at h
    by_cases hml : lineStartsWith l ("m=" ++ media) = true
    · simp only [setMediaBitrateLines, hml, if_true, hasMediaSection, List.any_cons]
      rcases Bool.or_eq_true_iff.mp h with hx | htail
      · simp [hx]
      · unfold applySection
        by_cases hany : (ls.take (sectionLen ls)).any (fun l => lineStartsWith l "b=AS:") = true
        · simp only [hany, if_true]
          simp [replaceAux ls htail]
        · simp only [hany, if_false]
          simp [List.any_cons, hbo, htail]
    · have hml' : lineStartsWith l ("m=" ++ media) = false := by
        cases hv : lineStartsWith l ("m=" ++ media) with
        | false => rfl
        | true => exact absurd hv hml
      simp only [setMediaBitrateLines, hml', if_false, hasMediaSection, List.any_cons]
      rcases Bool.or_eq_true_iff.mp h with hx | htail
      · simp [hx]
      · simp only [hasMediaSection] at ih
        simp [ih htail]

theorem boolNotTrue {b : Bool} (h : ¬ b = true) : b = false := by
  cases b with
  | false => rfl
  | true => exact absurd rfl h

/-- Lines inside a media section (before the next `m=` line) survive a pass
for another media type, and stay inside that section. -/
theorem mem_take_section_preserved (mediaA bline t : String)
    (hAm : ∀ l, lineStartsWith l ("m=" ++ mediaA) = true → lineStartsWith l "m=" = true) :
    ∀ ls : List String, t ∈ ls.take (sectionLen ls) →
      t ∈ (setMediaBitrateLines mediaA bline ls).take
            (sectionLen (setMediaBitrateLines mediaA bline ls))
  | [], h => by simp [sectionLen] at h
  | x :: tail, h => by
    by_cases hxm : lineStartsWith x "m=" = true
    · simp [sectionLen, hxm] at h
    · have hxm' := boolNotTrue hxm
      have hxA : lineStartsWith x ("m=" ++ mediaA) = false := by
        cases hv : lineStartsWith x ("m=" ++ mediaA) with
        | false => rfl
        | true => exact absurd (hAm x hv) hxm
      have hsl : sectionLen (x :: tail) = sectionLen tail + 1 := by
        simp [sectionLen, hxm']
      rw [hsl, List.take_succ_cons, List.mem_cons] at h
      rcases h with h | h
      · subst h
        simp [setMediaBitrateLines, hxA, sectionLen, hxm', List.take_succ_cons, List.mem_cons]
      · have ih := mem_take_section_preserved mediaA bline t hAm tail h
        simp [setMediaBitrateLines, hxA, sectionLen, hxm', List.take_succ_cons,
          List.mem_cons, ih]

/-- `replaceFirstB` preserves a `sectionContains` fact for another media type
as long as the replacement happens before the next `m=` line. -/
theorem sectionContains_replaceFirstB (mediaV bline t : String)
    (hVm : ∀ l, lineStartsWith l ("m=" ++ mediaV) = true → lineStartsWith l "m=" = true)
    (hbV : lineStartsWith bline ("m=" ++ mediaV) = false) :
    ∀ ls : List String,
      (ls.take (sectionLen ls)).any (fun l => lineStartsWith l "b=AS:") = true →
      sectionContains mediaV t ls = true →
      sectionContains mediaV t (replaceFirstB bline ls) = true
  | [], hany, _ => by simp [sectionLen] at hany
  | x :: tail, hany, h => by
    by_cases hxm : lineStartsWith x "m=" = true
    · simp [sectionLen, hxm] at hany
    · have hxm' := boolNotTrue hxm
      have hxV : lineStartsWith x ("m=" ++ mediaV) = false := by
        cases hv : lineStartsWith x ("m=" ++ mediaV) with
        | false => rfl
        | true => exact absurd (hVm x hv) hxm
      have hsl : sectionLen (x :: tail) = sectionLen tail + 1 := by
        simp [sectionLen, hxm']
      rw [hsl, List.take_succ_cons, List.any_cons] at hany
      simp only [sectionContains, hxV] at h
      rw [if_neg (by simp)] at h
      by_cases hxb : lineStartsWith x "b=AS:" = true
      · simp [replaceFirstB, hxb, sectionContains, hbV, h]
      · have hxb' := boolNotTrue hxb
        rw [hxb', Bool.false_or] at hany
        have ih := sectionContains_replaceFirstB mediaV bline t hVm hbV tail hany h
        simp [replaceFirstB, hxb', sectionContains, hxV, ih]

/-- A full pass for one media type preserves a `sectionContains` fact about
another media type. -/
theorem sectionContains_preserved (mediaV mediaA bline t : String)
    (hVA : ∀ l, lineStartsWith l ("m=" ++ mediaA) = true →
      lineStartsWith l ("m=" ++ mediaV) = false)
    (hAm : ∀ l, lineStartsWith l ("m=" ++ mediaA) = true → lineStartsWith l "m=" = true)
    (hVm : ∀ l, lineStartsWith l ("m=" ++ mediaV) = true → lineStartsWith l "m=" = true)
    (hbV : lineStartsWith bline ("m=" ++ mediaV) = false) :
    ∀ lines : List String,
      sectionContains mediaV t lines = true →
      sectionContains mediaV t (setMediaBitrateLines mediaA bline lines) = true
  | [], h => by simp [sectionContains] at h
  | l :: ls, h => by
    by_cases hA : lineStartsWith l ("m=" ++ mediaA) = true
    · have hV : lineStartsWith l ("m=" ++ mediaV) = false := hVA l hA
      simp only [sectionContains, hV] at h
      rw [if_neg (by simp)] at h
      simp only [setMediaBitrateLines, hA, if_pos rfl]
      simp only [sectionContains, hV]
      rw [if_neg (by simp)]
      unfold applySection
      by_cases hany : (ls.take (sectionLen ls)).any (fun l => lineStartsWith l "b=AS:") = true
      · rw [if_pos hany]
        exact sectionContains_replaceFirstB mediaV bline t hVm hbV ls hany h
      · have hany' := boolNotTrue hany
        rw [hany']
        simp [sectionContains, hbV, h]
    · have hA' := boolNotTrue hA
      by_cases hV : lineStartsWith l ("m=" ++ mediaV) = true
      · simp only [sectionContains, hV, if_true, decide_eq_true_eq] at h
        simp only [setMediaBitrateLines, hA']
        rw [if_neg (by simp)]
        simp only [sectionContains, hV, if_true, decide_eq_true_eq]
        exact mem_take_section_preserved mediaA bline t hAm ls h
      · have hV' := boolNotTrue hV
        simp only [sectionContains, hV'] at h
        rw [if_neg (by simp)] at h
        have ih := sectionContains_preserved mediaV mediaA bline t hVA hAm hVm hbV ls h
        simp [setMediaBitrateLines, hA', sectionContains, hV', ih]

/-! ## Claim C8: bandwidth caps in every offer -/

/-- C8: `createOffer` broadcasts exactly one offer whose SDP is the base SDP
rewritten by `setMediaBitrate` for video at 2500 and audio at 64; whenever the
base SDP has an `m=video` (resp. `m=audio`) section, the rewritten SDP's first
video (resp. audio) section contains the literal line `b=AS:2500`
(resp. `b=AS:64`) — an existing `b=AS:` line in that section is replaced, else
one is inserted right after the `m=` line — and a `setMediaBitrate` pass whose
media section is absent returns the SDP unchanged. -/
theorem offer_bandwidth_caps (s : P13.ConnState) (baseSdp : Sdp) :
    (P13.createOffer s baseSdp).outbox
        = s.outbox ++ [P13.offerEnvelope s.userId s.displayName (applyBitrates baseSdp)]
    ∧ (hasMediaSection "video" baseSdp = true →
        sectionContains "video" "b=AS:2500" (applyBitrates baseSdp) = true)
    ∧ (hasMediaSection "audio" baseSdp = true →
        sectionContains "audio" "b=AS:64" (applyBitrates baseSdp) = true)
    ∧ (hasMediaSection "video" baseSdp = false →
        setMediaBitrate baseSdp "video" 2500 = baseSdp)
    ∧ (hasMediaSection "audio" baseSdp = false →
        setMediaBitrate baseSdp "audio" 64 = baseSdp) := by
  have hb2500 : ("b=AS:" ++ toString 2500) = "b=AS:2500" := by decide
  have hb64 : ("b=AS:" ++ toString 64) = "b=AS:64" := by decide
  have hAm : ∀ l, lineStartsWith l ("m=" ++ "audio") = true →
      lineStartsWith l "m=" = true := fun _ h => lineStartsWith_mono h
  have hVm : ∀ l, lineStartsWith l ("m=" ++ "video") = true →
      lineStartsWith l "m=" = true := fun _ h => lineStartsWith_mono h
  have hVA : ∀ l, lineStartsWith l ("m=" ++ "audio") = true →
      lineStartsWith l ("m=" ++ "video") = false :=
    lineStartsWith_exclusive (by decide) (by decide)
  refine ⟨by simp [P13.createOffer], ?_, ?_, ?_, ?_⟩
  · intro h
    unfold applyBitrates setMediaBitrate
    rw [hb2500, hb64]
    have hx := setMediaBitrateLines_sectionContains "video" "b=AS:2500" (by decide)
        baseSdp h
    exact sectionContains_preserved "video" "audio" "b=AS:64" "b=AS:2500"
      hVA hAm hVm (by decide) _ hx
  · intro h
    unfold applyBitrates setMediaBitrate
    rw [hb2500, hb64]
    have hkeep := hasMediaSection_preserved "video" "audio" "b=AS:2500"
        (by decide) (lineStartsWith_exclusive (by decide) (by decide)) baseSdp h
    exact setMediaBitrateLines_sectionContains "audio" "b=AS:64" (by decide)
      _ hkeep
  · intro h
    unfold setMediaBitrate
    exact setMediaBitrateLines_id _ _ baseSdp h
  · intro h
    unfold setMediaBitrate
    exact setMediaBitrateLines_id _ _ baseSdp h

/-- Witness for C8 at a concrete SDP with one audio and one video section. -/
theorem offer_bandwidth_caps_witness :
    sectionContains "video" "b=AS:2500"
        (applyBitrates ["v=0", "m=audio 9", "a=x", "m=video 9", "a=y"]) = true
    ∧ sectionContains "audio" "b=AS:64"
        (applyBitrates ["v=0", "m=audio 9", "a=x", "m=video 9", "a=y"]) = true := by
  have h := offer_bandwidth_caps (P13.initConn "me" "Me")
      ["v=0", "m=audio 9", "a=x", "m=video 9", "a=y"]
  exact ⟨h.2.1 (by decide), h.2.2.1 (by decide)⟩

/-! ## Claim C3: duplicate suppression in the signaling handlers -/

/-- C3 counterexample: in the part_007 handler, presence envelopes are NOT
exempt from suppression.  The same presence envelope (timestamp 5) delivered
a second time at time 2000 is swallowed by the id cache: the result differs
from what processing it (dispatching to `handlePresence`, which would refresh
the sender's activity stamp to 2000) would produce, so presence is not
"processed on every delivery". -/
theorem presence_not_exempt_counterexample :
    SH.handle7 (SH.handle7 { conn := P13.initConn "me" "Me" }
        { type := "presence", sender := "peer", timestamp := some 5 } 1000 {})
      { type := "presence", sender := "peer", timestamp := some 5 } 2000 {}
    ≠ { SH.handle7 { conn := P13.initConn "me" "Me" }
          { type := "presence", sender := "peer", timestamp := some 5 } 1000 {} with
        conn := SH.dispatch
          (SH.handle7 { conn := P13.initConn "me" "Me" }
            { type := "presence", sender := "peer", timestamp := some 5 } 1000 {}).conn
          { type := "presence", sender := "peer", timestamp := some 5 } 2000 {} } := by
  decide

/-- C3 (amended): in the part_007 handler, a second delivery of the same
envelope (same type, sender and non-zero timestamp) is suppressed by the
recently-seen-id cache and changes nothing — presence envelopes included,
they are not exempt there.  In the part_005 handler the message id carries a
random suffix, so every delivery whose id is fresh — as a random suffix makes
it — is dispatched: that cache suppresses nothing. -/
theorem duplicate_suppression :
    (∀ (s : SH.St) (d : SignalingData) (n1 n2 : Nat) (oracle : SH.Oracle) (t : Nat),
        d.timestamp = some t → t ≠ 0 →
        SH.handle7 (SH.handle7 s d n1 oracle) d n2 oracle = SH.handle7 s d n1 oracle)
    ∧ (∀ (s : SH.St) (d : SignalingData) (now : Nat) (nonce : String)
        (oracle : SH.Oracle),
        SH.messageId5 d now nonce ∉ s.processed →
        (SH.handle5 s d now nonce oracle).conn = SH.dispatch s.conn d now oracle) := by
  constructor
  · intro s d n1 n2 oracle t ht ht0
    have h2 : SH.messageId d n2 = SH.messageId d n1 := by
      simp [SH.messageId, ht, ht0]
    by_cases hmem : SH.messageId d n1 ∈ s.processed
    · have e1 : SH.handle7 s d n1 oracle = s := by
        simp [SH.handle7, hmem]
      rw [e1]
      simp [SH.handle7, h2, hmem]
    · have e1 : SH.handle7 s d n1 oracle
          = { processed := s.processed ++ [SH.messageId d n1],
              conn := SH.dispatch s.conn d n1 oracle } := by
        simp [SH.handle7, hmem]
      rw [e1]
      simp [SH.handle7, h2]
  · intro s d now nonce oracle hmem
    by_cases hp : d.type = "presence"
    · simp [SH.handle5, hp]
    · simp [SH.handle5, hmem, hp]

/-- Witness for C3 (amended): a duplicated offer envelope is suppressed by
the part_007 handler; the part_005 handler dispatches a first-seen id. -/
theorem duplicate_suppression_witness :
    SH.handle7 (SH.handle7 { conn := P13.initConn "me" "Me" }
        { type := "offer", sender := "peer", sdp := some ["v=0"], timestamp := some 7 } 1 {})
      { type := "offer", sender := "peer", sdp := some ["v=0"], timestamp := some 7 } 2 {}
    = SH.handle7 { conn := P13.initConn "me" "Me" }
        { type := "offer", sender := "peer", sdp := some ["v=0"], timestamp := some 7 } 1 {}
    ∧ (SH.handle5 { conn := P13.initConn "me" "Me" }
        { type := "offer", sender := "peer", sdp := some ["v=0"], timestamp := some 7 }
        1 "r1x" {}).conn
      = SH.dispatch (P13.initConn "me" "Me")
          { type := "offer", sender := "peer", sdp := some ["v=0"], timestamp := some 7 }
          1 {} := by
  exact ⟨duplicate_suppression.1 _ _ 1 2 {} 7 rfl (by decide),
         duplicate_suppression.2 { conn := P13.initConn "me" "Me" } _ 1 "r1x" {} (by decide)⟩

/-! ## Claim C4: reconnection retries are not capped -/

/-- C4 counterexample: six consecutive failure rounds execute six reconnect
attempts — strictly more than every cap in the claimed 3–5 range — and zero
terminal connection-failed events are surfaced (no code path produces one). -/
theorem reconnect_cap_counterexample :
    (RC.run RC.init (RC.failRounds 6)).reconnectAttempts = 6
    ∧ (RC.run RC.init (RC.failRounds 6)).terminalFailures = 0
    ∧ ∀ cap : Nat, 3 ≤ cap → cap ≤ 5 →
        cap < (RC.run RC.init (RC.failRounds 6)).reconnectAttempts := by
  refine ⟨rfl, rfl, ?_⟩
  intro cap _ hc
  have h6 : (RC.run RC.init (RC.failRounds 6)).reconnectAttempts = 6 := rfl
  rw [h6]
  omega

/-- C4 (amended): the reconnection logic never stops retrying and never
surfaces a terminal connection-failed condition: every `failed`/`disconnected`
transition re-arms the reconnect timer, `n` consecutive failure rounds
execute exactly `n` reconnect attempts, and along every event sequence the
number of surfaced terminal connection-failed conditions is zero — no code
path produces one. -/
theorem unbounded_reconnect_no_terminal :
    (∀ n : Nat, (RC.run RC.init (RC.failRounds n)).reconnectAttempts = n
        ∧ (RC.run RC.init (RC.failRounds n)).terminalFailures = 0)
    ∧ ∀ evs : List RC.Ev, (RC.run RC.init evs).terminalFailures = 0 := by
  have hterm : ∀ (s : RC.St) (e : RC.Ev),
      (RC.step s e).terminalFailures = s.terminalFailures := by
    intro s e
    cases e with
    | connStateChange ns =>
      by_cases h1 : ns = "failed" ∨ ns = "disconnected" <;>
        by_cases h2 : ns = "connected" <;>
          simp [RC.step, h1, h2]
    | reconnectTimerFire =>
      by_cases h1 : s.reconnectPending = true <;> simp [RC.step, h1]
    | iceGatheringComplete =>
      simp only [RC.step]
      split <;> rfl
    | iceRestartTimerFire =>
      simp only [RC.step]
      split <;> rfl
  have hfold : ∀ (evs : List RC.Ev) (s : RC.St),
      (RC.run s evs).terminalFailures = s.terminalFailures := by
    intro evs
    induction evs with
    | nil => intro s; rfl
    | cons e rest ih =>
      intro s
      show (RC.run (RC.step s e) rest).terminalFailures = s.terminalFailures
      rw [ih (RC.step s e), hterm s e]
  have hrounds : ∀ (n : Nat) (s : RC.St),
      (RC.run s (RC.failRounds n)).reconnectAttempts = s.reconnectAttempts + n
      ∧ (RC.run s (RC.failRounds n)).terminalFailures = s.terminalFailures := by
    intro n
    induction n with
    | zero => intro s; simp [RC.run, RC.failRounds]
    | succ k ih =>
      intro s
      have hsplit : RC.run s (RC.failRounds (k + 1))
          = RC.run (RC.step (RC.step s (RC.Ev.connStateChange "failed"))
              RC.Ev.reconnectTimerFire) (RC.failRounds k) := by
        simp [RC.failRounds, RC.failRound, RC.run]
      have hmid1 : (RC.step (RC.step s (RC.Ev.connStateChange "failed"))
          RC.Ev.reconnectTimerFire).reconnectAttempts = s.reconnectAttempts + 1 := rfl
      have hmid2 : (RC.step (RC.step s (RC.Ev.connStateChange "failed"))
          RC.Ev.reconnectTimerFire).terminalFailures = s.terminalFailures := rfl
      rw [hsplit]
      obtain ⟨h1, h2⟩ := ih (RC.step (RC.step s (RC.Ev.connStateChange "failed"))
          RC.Ev.reconnectTimerFire)
      rw [h1, h2, hmid1, hmid2]
      exact ⟨by omega, rfl⟩
  refine ⟨fun n => ?_, fun evs => hfold evs RC.init⟩
  obtain ⟨h1, h2⟩ := hrounds n RC.init
  rw [h1, h2]
  exact ⟨by show 0 + n = n; omega, rfl⟩

/-! ## Claim C5: what `close()` reports -/

/-- C5 counterexample: after `close()` the engine's reported connection state
is `"new"`, not `"closed"` — `close` is the only teardown and it never writes
`"closed"` into the reported state. -/
theorem close_reports_new_counterexample :
    (WC.close WC.mkEngine).connectionState = "new"
    ∧ ¬ (WC.close WC.mkEngine).connectionState = "closed" := by
  exact ⟨rfl, by decide⟩

/-- C5 (amended): `close()` is the explicit teardown: it cancels the tracked
timers, closes and drops the peer connection, stops and drops the local
tracks, forgets the remote peer — and resets the reported state to `"new"`,
never `"closed"`; the engine can be re-initialized afterwards (as
`attemptReconnect` does after a failed ICE restart), so no reported state is
terminal. -/
theorem close_resets_state (s : WC.St) :
    (WC.close s).connectionState = "new"
    ∧ (WC.close s).peerConnectionOpen = false
    ∧ (WC.close s).localStreamTracks = none
    ∧ (WC.close s).remotePeerId = none
    ∧ (WC.close s).hasRemoteUser = false
    ∧ (WC.close s).reconnectTimer = none
    ∧ (WC.close s).presenceCheckInterval = none
    ∧ (WC.initPeerConnection (WC.close s)).peerConnectionOpen = true := by
  cases hr : s.reconnectTimer <;> cases hp : s.presenceCheckInterval <;>
    simp [WC.close, WC.cancel, WC.initPeerConnection, hr, hp]

/-! ## Claim C6: a dangling timer fires after close -/

/-- C6: the claim (and §5 of the spec) requires `close()` to cancel every
pending timer.  `close()` does cancel the tracked reconnect timer and
presence interval and stops the local tracks, but the 2-second
`createOffer`-retry `setTimeout` scheduled by a `createOffer` failure is
never stored anywhere, so `close()` cannot clear it: concretely, after the
engine is constructed, `createOffer` fails once and `close()` runs, the
retry timer (id 1) is still pending and will fire against the closed
engine.  The same holds for the ICE-restart `setTimeout`. -/
theorem dangling_timer_after_close :
    (WC.close (WC.createOfferFailure WC.mkEngine)).pendingTimers
        = [(1, WC.TimerKind.offerRetry)]
    ∧ (WC.close (WC.iceRestartDelay WC.mkEngine)).pendingTimers
        = [(1, WC.TimerKind.iceRestart)]
    ∧ (WC.close (WC.createOfferFailure WC.mkEngine)).reconnectTimer = none
    ∧ (WC.close (WC.createOfferFailure WC.mkEngine)).presenceCheckInterval = none
    ∧ (WC.close (WC.createOfferFailure WC.mkEngine)).localStreamTracks = none := by
  exact ⟨rfl, rfl, rfl, rfl, rfl⟩

/-! ## Claim C7: `send` never throws, stamps, and recovers from quota loss -/

set_option maxRecDepth 4000 in
/-- C7: `send` is the total catch of the fallible `trySend` — its caller
always receives a state, never an exception.  It overwrites the envelope's
timestamp with the send time; when storage accepts the new log, the log is
the previous one plus the stamped envelope (bounded to the last 200); when
storage reports quota exhaustion, the log is cleared and replaced by a single
broadcast `storage-cleanup` reset notice — silent data loss that does not
reach the caller. -/
theorem send_no_throw_stamps_and_recovers
    (quotaOk : List SignalingData → Bool) (selfId displayName : String)
    (s : Sig.St) (d : SignalingData) (now : Nat) :
    (Sig.stamp d now displayName).timestamp = some now
    ∧ (quotaOk (Sig.takeLast 200 (s.stored ++ [Sig.stamp d now displayName])) = true →
        (Sig.send quotaOk selfId displayName 2 s d now).stored
            = Sig.takeLast 200 (s.stored ++ [Sig.stamp d now displayName])
        ∧ (Sig.send quotaOk selfId displayName 2 s d now).bcPosts
            = s.bcPosts ++ [Sig.stamp d now displayName])
    ∧ (quotaOk (Sig.takeLast 200 (s.stored ++ [Sig.stamp d now displayName])) = false →
        quotaOk (Sig.takeLast 200 [Sig.stamp (Sig.cleanupMsg selfId now) now displayName])
            = true →
        (Sig.send quotaOk selfId displayName 2 s d now).stored
            = [Sig.stamp (Sig.cleanupMsg selfId now) now displayName]
        ∧ (Sig.send quotaOk selfId displayName 2 s d now).bcPosts
            = s.bcPosts ++ [Sig.stamp d now displayName,
                            Sig.stamp (Sig.cleanupMsg selfId now) now displayName]) := by
  refine ⟨rfl, ?_, ?_⟩
  · intro hq
    by_cases hd : d.type = "presence" <;>
      simp [Sig.send, Sig.trySend, hq, hd]
  · intro hq hq2
    have hsp : ¬ ("storage-cleanup" : String) = "presence" := by decide
    have ht1 : Sig.trySend quotaOk displayName s d now = Except.error Sig.SigErr.quota := by
      simp [Sig.trySend, hq]
    have hstep : Sig.send quotaOk selfId displayName 2 s d now
        = Sig.send quotaOk selfId displayName 1
            { s with bcPosts := s.bcPosts ++ [Sig.stamp d now displayName], stored := [] }
            (Sig.cleanupMsg selfId now) now := by
      simp [Sig.send, ht1]
    have ht2 : Sig.trySend quotaOk displayName
        { s with bcPosts := s.bcPosts ++ [Sig.stamp d now displayName], stored := [] }
        (Sig.cleanupMsg selfId now) now
        = Except.ok
            { stored := [Sig.stamp (Sig.cleanupMsg selfId now) now displayName],
              bcPosts := (s.bcPosts ++ [Sig.stamp d now displayName])
                ++ [Sig.stamp (Sig.cleanupMsg selfId now) now displayName],
              sessionLatest := some (Sig.stamp (Sig.cleanupMsg selfId now) now displayName),
              participantCache := s.participantCache } := by
      have hpres : ¬ (Sig.cleanupMsg selfId now).type = "presence" := by
        show ¬ ("storage-cleanup" : String) = "presence"
        decide
      simp only [Sig.trySend, List.nil_append]
      rw [if_pos hq2, if_neg hpres]
      rfl
    rw [hstep]
    simp [Sig.send, ht2]

/-- Witness for C7: a quota limit of one stored message forces the quota path
— the log ends as just the reset notice — while an accepting store keeps the
stamped envelope. -/
theorem send_no_throw_stamps_and_recovers_witness :
    (Sig.send (fun l => decide (l.length ≤ 1)) "me" "Me" 2 {}
        { type := "offer", sender := "me" } 9).stored
      = Sig.takeLast 200 ([] ++ [Sig.stamp { type := "offer", sender := "me" } 9 "Me"])
    ∧ (Sig.send (fun l => decide (l.length ≤ 1)) "me" "Me" 2
        { stored := [Sig.stamp { type := "offer", sender := "me" } 8 "Me"] }
        { type := "offer", sender := "me" } 9).stored
      = [Sig.stamp (Sig.cleanupMsg "me" 9) 9 "Me"] := by
  have h1 := send_no_throw_stamps_and_recovers (fun l => decide (l.length ≤ 1))
      "me" "Me" {} { type := "offer", sender := "me" } 9
  have h2 := send_no_throw_stamps_and_recovers (fun l => decide (l.length ≤ 1))
      "me" "Me" { stored := [Sig.stamp { type := "offer", sender := "me" } 8 "Me"] }
      { type := "offer", sender := "me" } 9
  exact ⟨(h1.2.1 (by decide)).1, (h2.2.2 (by decide) (by decide)).1⟩

/-! ## Claim C9: stale sweep with a left notification; idempotent removal -/

theorem mapDelete_absent {α : Type} (m : List (String × α)) (k : String)
    (h : mapGet m k = none) : mapDelete m k = m := by
  induction m with
  | nil => rfl
  | cons e es ih =>
    by_cases he : e.1 = k
    · simp [mapGet, he] at h
    · simp only [mapGet, if_neg he] at h
      have ih' := ih h
      unfold mapDelete at ih' ⊢
      rw [List.filter_cons, ih']
      simp [he]

/-- C9: the `SignalingService` participant cleanup removes every participant
whose last heartbeat is older than the staleness threshold (8 s in this
revision) from its tracked cache and sends a `participant-left` envelope —
the left notification — for each; removal is everywhere a no-op on absent
ids: `removeParticipant` leaves a list without the id unchanged and is
idempotent, and `handleParticipantLeft` for an unknown non-primary id leaves
the engine state unchanged; the part_004 sweep also drops every participant
not seen for more than its 45 s threshold. -/
theorem stale_sweep_and_idempotent_removal :
    (∀ (cache : List (String × Nat)) (selfId : String) (now : Nat)
        (pid : String) (ts : Nat),
        (pid, ts) ∈ cache → pid ≠ selfId → now - ts > 8000 →
        (pid, ts) ∉ (Sig.participantCleanup cache selfId now).1
        ∧ Sig.participantLeftMsg pid now ∈ (Sig.participantCleanup cache selfId now).2)
    ∧ (∀ (prev : List PT.RemoteParticipant) (pid : String),
        (∀ p ∈ prev, p.userId ≠ pid) → PT.removeParticipant prev pid = prev)
    ∧ (∀ (prev : List PT.RemoteParticipant) (pid : String),
        PT.removeParticipant (PT.removeParticipant prev pid) pid
          = PT.removeParticipant prev pid)
    ∧ (∀ (prev : List PT.RemoteParticipant) (now : Nat) (p : PT.RemoteParticipant),
        p ∈ prev → now - p.joinedAt > 45000 → p ∉ PT.sweepStale prev now)
    ∧ (∀ (s : P13.ConnState) (pid : String),
        ¬ s.remotePeerId = some pid → mapGet s.activeRemoteUsers pid = none →
        P13.handleParticipantLeft s pid = s) := by
  refine ⟨?_, ?_, ?_, ?_, ?_⟩
  · intro cache selfId now pid ts hmem hne hstale
    constructor
    · intro hc
      have hkeep := (List.mem_filter.mp hc).2
      simp only [Bool.not_eq_true', decide_eq_false_iff_not] at hkeep
      exact hkeep ⟨hstale, hne⟩
    · exact List.mem_map.mpr
        ⟨(pid, ts), List.mem_filter.mpr ⟨hmem, by simp [hstale, hne]⟩, rfl⟩
  · intro prev pid h
    apply List.filter_eq_self.mpr
    intro p hp
    simp [h p hp]
  · intro prev pid
    apply List.filter_eq_self.mpr
    intro p hp
    simp only [PT.removeParticipant] at hp
    exact (List.mem_filter.mp hp).2
  · intro prev now p hmem hstale hc
    have hkeep := (List.mem_filter.mp hc).2
    simp only [Bool.not_eq_true', decide_eq_false_iff_not] at hkeep
    exact hkeep hstale
  · intro s pid h1 h2
    simp [P13.handleParticipantLeft, h1, mapDelete_absent _ _ h2]

/-- Witness for C9: a participant last seen at 0 is removed at time 9001 with
a left notification; removing an id from a list that lacks it is a no-op. -/
theorem stale_sweep_and_idempotent_removal_witness :
    ((("peer", 0) ∉ (Sig.participantCleanup [("peer", 0)] "me" 9001).1)
      ∧ Sig.participantLeftMsg "peer" 9001 ∈ (Sig.participantCleanup [("peer", 0)] "me" 9001).2)
    ∧ PT.removeParticipant [] "ghost" = ([] : List PT.RemoteParticipant)
    ∧ P13.handleParticipantLeft (P13.initConn "me" "Me") "ghost" = P13.initConn "me" "Me" := by
  exact ⟨stale_sweep_and_idempotent_removal.1 [("peer", 0)] "me" 9001 "peer" 0
           (by decide) (by decide) (by decide),
         stale_sweep_and_idempotent_removal.2.1 [] "ghost" (by intro p hp; cases hp),
         stale_sweep_and_idempotent_removal.2.2.2.2 (P13.initConn "me" "Me") "ghost"
           (by decide) rfl⟩
